import Mathlib

/-!
# Verification of the Mann-Kendall trend detector (`detectors/trend_mk.py`)

Shallow embedding of the Mann-Kendall (MK) trend-detection core:

* the univariate statistic engine (`_mk_score`, `_var_s`, `_z_score`,
  `_p_value`, `MKtest`),
* the multivariate aggregator (`multivariate_MKtest`),
* the window scanner (`detector`, `get_MK_results`).

The metric ranker `get_top_k_metrics` is not embedded: its ordering among
metrics of equal `|Tau|` is delegated to `pandas.Series.sort_values` with
the default sort kind, whose tie order the library does not specify, so no
faithful exact model of that function is available here.

Numeric series values are embedded as exact rationals `ℚ` (the source works
on floating-point arrays); missing values (`NaN` entries) are embedded as
`Option ℚ` with `none` for a missing observation.  The z-score, which divides
by `sqrt(var_s)`, lives in `ℝ` via `Real.sqrt`.  The Gaussian quantile
`norm.ppf(1 - alpha/2)` used by `_p_value` is a transcendental constant of
`scipy`; it is abstracted as an explicit parameter `zcrit` of the trend
decision, exactly as the decision rule uses it.
-/

namespace MK

/-- `np.sign` on a rational difference, as used by `_mk_score`:
`1` for positive, `-1` for negative, `0` for zero. -/
def sgnq (q : ℚ) : ℤ :=
  if 0 < q then 1 else if q < 0 then -1 else 0

/-- `_mk_score(x)`: the Mann-Kendall score `S = Σ_{k<j} sign(x[j] - x[k])`.
The source's double loop (outer `k`, inner `j > k`) is embedded as a head/tail
recursion: the head element is compared against every later element, then the
tail is scored. -/
def mkScore : List ℚ → ℤ
  | [] => 0
  | a :: t => (t.map (fun b => sgnq (b - a))).sum + mkScore t

/-- The tie term `np.sum(tp * (tp - 1) * (2 * tp + 5))` of `_var_s`, where
`tp` ranges over the multiplicities of the distinct values of `x`
(`Counter(x).values()`). -/
def tieTerm (x : List ℚ) : ℚ :=
  (x.dedup.map (fun v =>
    ((x.count v : ℚ)) * ((x.count v : ℚ) - 1) * (2 * (x.count v : ℚ) + 5))).sum

/-- `_var_s(x)`: the variance used by the source.  When all values are
distinct (`n == len(np.unique(x))`) it is `n(n-1)(2n+5)/18`; otherwise the
source *adds* the tie term: `(n(n-1)(2n+5) + Σ t(t-1)(2t+5)) / 18`. -/
def varS (x : List ℚ) : ℚ :=
  if x.length = x.dedup.length then
    (x.length : ℚ) * ((x.length : ℚ) - 1) * (2 * (x.length : ℚ) + 5) / 18
  else
    ((x.length : ℚ) * ((x.length : ℚ) - 1) * (2 * (x.length : ℚ) + 5) + tieTerm x) / 18

/-- Modelled from the spec: the *standard* Mann-Kendall tie-corrected
variance, `(n(n-1)(2n+5) - Σ t(t-1)(2t+5)) / 18`, which *subtracts* the tie
term (Mann 1945, Kendall 1975, Gilbert 1987; the reference cited by the
source's class docstring).  Used only to compare the source's `_var_s`
against the formula named by the claim. -/
def varSStandard (x : List ℚ) : ℚ :=
  ((x.length : ℚ) * ((x.length : ℚ) - 1) * (2 * (x.length : ℚ) + 5) - tieTerm x) / 18

/-- Kendall's Tau as computed in `MKtest`: `Tau = s / (0.5 * n * (n - 1))`.
(In `ℚ`, division by a zero denominator yields `0`; the source instead raises
`ZeroDivisionError` there, which is modelled separately by `MKtest`.) -/
def tauq (x : List ℚ) : ℚ :=
  (mkScore x : ℚ) / ((1 / 2 : ℚ) * (x.length : ℚ) * ((x.length : ℚ) - 1))

/-- `_z_score(s, var_s)`: `(s-1)/sqrt(var_s)` if `s > 0`, `0` if `s = 0`,
`(s+1)/sqrt(var_s)` if `s < 0`. -/
noncomputable def zScore (s : ℤ) (v : ℚ) : ℝ :=
  if 0 < s then ((s : ℝ) - 1) / Real.sqrt (v : ℝ)
  else if s = 0 then 0
  else ((s : ℝ) + 1) / Real.sqrt (v : ℝ)

open Classical in
/-- The trend decision of `_p_value(z, Tau)`: with `h = |z| > zcrit` (where
`zcrit` stands for `norm.ppf(1 - alpha/2)`), return `"decreasing"` when
`z < 0 ∧ h ∧ Tau < -threshold`, `"increasing"` when
`z > 0 ∧ h ∧ Tau > threshold`, and `"no trend"` otherwise. -/
noncomputable def pTrend (z zcrit : ℝ) (Tau threshold : ℚ) : String :=
  if z < 0 ∧ |z| > zcrit ∧ Tau < -threshold then "decreasing"
  else if 0 < z ∧ |z| > zcrit ∧ threshold < Tau then "increasing"
  else "no trend"

/-- The full univariate labelling pipeline on a (NaN-free) window `x`:
score, variance and Tau feed `_z_score` and the `_p_value` trend decision. -/
noncomputable def mkTrendLabel (x : List ℚ) (zcrit : ℝ) (threshold : ℚ) : String :=
  pTrend (zScore (mkScore x) (varS x)) zcrit (tauq x) threshold

/-- Swapping the two directed trend labels; any other label is fixed. -/
def swapLabel : String → String
  | "increasing" => "decreasing"
  | "decreasing" => "increasing"
  | s => s

/-- `_drop_missing_values` on one column: keep the non-`NaN` entries. -/
def dropMissing (col : List (Option ℚ)) : List ℚ :=
  col.filterMap id

/-- `MKtest` (univariate) on one column: after dropping missing values it
computes `s`, `var_s` and `Tau = s / (0.5 * n * (n-1))`.  The source performs
the `Tau` division unguarded; with fewer than 2 valid points the denominator
is `0` and Python raises an uncaught `ZeroDivisionError`, embedded as
`Except.error`.  (The z-score, being real-valued, is modelled separately by
`zScore`; it is well defined even for `n < 2` since `s = 0` there.) -/
def MKtest (col : List (Option ℚ)) : Except String (ℤ × ℚ × ℚ) :=
  let x := dropMissing col
  let s := mkScore x
  let v := varS x
  let denom : ℚ := (1 / 2 : ℚ) * (x.length : ℚ) * ((x.length : ℚ) - 1)
  if denom = 0 then Except.error "ZeroDivisionError"
  else Except.ok (s, v, (s : ℚ) / denom)

end MK

namespace MK

/-! ## Multivariate aggregator (`multivariate_MKtest`) -/

/-- Per-column Mann-Kendall score `s_i` after per-column NaN removal. -/
def colScore (col : List (Option ℚ)) : ℤ :=
  mkScore (dropMissing col)

/-- Per-column variance `var_s_i` after per-column NaN removal. -/
def colVar (col : List (Option ℚ)) : ℚ :=
  varS (dropMissing col)

/-- Per-column denominator `0.5 * n_i * (n_i - 1)`. -/
def colDenom (col : List (Option ℚ)) : ℚ :=
  (1 / 2 : ℚ) * ((dropMissing col).length : ℚ) * (((dropMissing col).length : ℚ) - 1)

/-- The accumulation loop of `multivariate_MKtest`: starting from
`s = 0, var_s = 0, denominator = 0`, each column contributes
`s_i`, `var_s_i` and `denominator_i`. -/
def mvAccum (cols : List (List (Option ℚ))) : ℤ × ℚ × ℚ :=
  cols.foldl
    (fun acc col => (acc.1 + colScore col, acc.2.1 + colVar col, acc.2.2 + colDenom col))
    (0, 0, 0)

/-- `Tau_dict["overall"] = s / denominator` with the pooled score and pooled
denominator. -/
def overallTau (cols : List (List (Option ℚ))) : ℚ :=
  ((mvAccum cols).1 : ℚ) / (mvAccum cols).2.2

/-- The overall z-score `z = self._z_score(s, var_s)` computed from the
pooled score and pooled variance. -/
noncomputable def overallZ (cols : List (List (Option ℚ))) : ℝ :=
  zScore (mvAccum cols).1 (mvAccum cols).2.1

/-- Per-column `Tau_i = s_i / denominator_i`; the source's
`try ... except ZeroDivisionError` stores `None` when the denominator is
zero, embedded as `none`. -/
def perColTau (col : List (Option ℚ)) : Option ℚ :=
  if colDenom col = 0 then none else some ((colScore col : ℚ) / colDenom col)

/-- First column of the two-column example: `[1, 2, 3]`, no missing values. -/
def mvCol1 : List (Option ℚ) := [some 1, some 2, some 3]

/-- Second column of the two-column example: `[1, 0, NaN]`; after NaN
removal it has 2 valid points, a different count than `mvCol1`'s 3. -/
def mvCol2 : List (Option ℚ) := [some 1, some 0, none]

/-- The two-column example input. -/
def mvEx : List (List (Option ℚ)) := [mvCol1, mvCol2]

end MK

namespace MK

/-! ## Window scanner (`detector`) -/

/-- The trailing `n` elements of a list: `_preprocessing`'s `ts[-window_size:]`. -/
def lastN (n : ℕ) (l : List α) : List α :=
  l.drop (l.length - n)

/-- The window the engine sees at anchor position `t`: the scanner feeds
`ts_smoothed.loc[:t]` (the first `t+1` rows) and `_preprocessing` keeps the
trailing `window_size` rows. -/
def windowAt (x : List ℚ) (W t : ℕ) : List ℚ :=
  lastN W (x.take (t + 1))

/-- One row of the `MK_statistics` dataframe for the univariate scan.
`ds` is the anchor position (`ts.index[-1]` of the truncated series);
`score` and `variance` are the exact-rational statistics of the window.
(The trend label and p-value, which are real-valued, are modelled by
`mkTrendLabel`/`zScore`; Tau, whose division can raise, by `MKtest`.) -/
structure StatRecord where
  ds : ℕ
  score : ℤ
  variance : ℚ
deriving DecidableEq, Repr

/-- The whole-series scan loop `for t in ts_smoothed.index[window_size:]`:
one Statistic Record per anchor position `t`, in loop order.  The series `x`
stands for the smoothed series; on NaN-free input the deseasonalization
(identity for `freq=None`) and smoothing stages preserve the index, so the
anchors are positions `window_size, …, len(x) - 1`. -/
def scanRecords (x : List ℚ) (W : ℕ) : List StatRecord :=
  ((List.range x.length).drop W).map (fun t =>
    { ds := t, score := mkScore (windowAt x W t), variance := varS (windowAt x W t) })

/-- Observable events of one `detector` run, in execution order. -/
inductive DetEvent where
  /-- The `ValueError` raised when `len(ts) < window_size` (before the scan). -/
  | lengthError : DetEvent
  /-- One iteration of the scan loop: `runDetector` evaluated at anchor `t`,
  appending a statistic row. -/
  | evalWindow : ℕ → DetEvent
  /-- The `ValueError` raised by `get_MK_results` when `direction` is not one
  of `up`, `down`, `both` (after the scan). -/
  | directionError : DetEvent
deriving DecidableEq, Repr

/-- The event trace of a whole-series `detector` run, following the source's
control flow: the length precondition is checked first; then the scan loop
runs over anchors `window_size, …, len(x) - 1`; only afterwards does
`get_MK_results` validate `direction`. -/
def detectorEvents (x : List ℚ) (W : ℕ) (dir : String) : List DetEvent :=
  if x.length < W then [DetEvent.lengthError]
  else
    (((List.range x.length).drop W).map DetEvent.evalWindow)
      ++ (if dir = "up" ∨ dir = "down" ∨ dir = "both" then [] else [DetEvent.directionError])

/-- The spec's §8 example series `[1,…,10,9,…,0]` (20 points). -/
def xC7 : List ℚ :=
  [1, 2, 3, 4, 5, 6, 7, 8, 9, 10, 9, 8, 7, 6, 5, 4, 3, 2, 1, 0]

/-- A strictly increasing 21-point series, used to exercise a run that
evaluates exactly one window. -/
def xUp21 : List ℚ :=
  (List.range 21).map (fun i => (i : ℚ))

end MK

namespace MK

/-! ## Column dropping (`detector`'s `ts.dropna(axis=1)`) and the
multivariate scan -/

/-- A named dataframe column with possibly missing entries. -/
abbrev Column := String × List (Option ℚ)

/-- Whether a column contains at least one missing value. -/
def hasMissing (c : List (Option ℚ)) : Bool :=
  c.any Option.isNone

/-- `ts.dropna(axis=1)`: drop, in its entirety, every column containing at
least one `NaN`; the surviving columns keep their order. -/
def dropNaNColumns (cols : List Column) : List Column :=
  cols.filter (fun c => !hasMissing c.2)

/-- One row of `MK_statistics` for the multivariate scan: the anchor
position, the per-column `Tau_i` entries of `Tau_dict` (in column order,
`none` for a zero denominator) and the pooled `Tau_dict["overall"]`. -/
structure MVRecord where
  ds : ℕ
  taus : List (String × Option ℚ)
  overall : ℚ
deriving DecidableEq, Repr

/-- `multivariate_MKtest` on the window anchored at position `t`: each
column is truncated to the first `t+1` rows, `_preprocessing` keeps the
trailing `window_size` rows, and NaNs are dropped per column inside the
aggregation loop. -/
def mvTestAt (cols : List Column) (W t : ℕ) : MVRecord :=
  let wins := cols.map (fun c => (c.1, lastN W (c.2.take (t + 1))))
  { ds := t
  , taus := wins.map (fun c => (c.1, perColTau c.2))
  , overall := overallTau (wins.map (fun c => c.2)) }

/-- The multivariate whole-series scan over an index of `L` rows. -/
def mvScanRecords (L : ℕ) (cols : List Column) (W : ℕ) : List MVRecord :=
  ((List.range L).drop W).map (mvTestAt cols W)

/-- The multivariate `detector` pipeline front: `ts.dropna(axis=1)` runs
first (before deseasonalization, smoothing and any statistic), then the scan
operates on the surviving columns over the `L`-row index. -/
def detectorScan (L : ℕ) (cols : List Column) (W : ℕ) : List MVRecord :=
  mvScanRecords L (dropNaNColumns cols) W

end MK


namespace MK

/-! ## Helper lemmas -/

theorem sgnq_neg (q : ℚ) : sgnq (-q) = - sgnq q := by
  unfold sgnq
  rcases lt_trichotomy q 0 with h | h | h
  · rw [if_pos (neg_pos.mpr h), if_neg (not_lt.mpr h.le), if_pos h]
    norm_num
  · subst h
    norm_num
  · rw [if_neg (not_lt.mpr (by linarith : (-q : ℚ) ≤ 0)), if_pos (by linarith : (-q : ℚ) < 0),
      if_pos h]

theorem sum_map_neg_int (t : List ℚ) (f : ℚ → ℤ) :
    (t.map (fun b => - f b)).sum = - (t.map f).sum := by
  induction t with
  | nil => simp
  | cons b t ih => simp [ih]; ring

theorem mkScore_map_neg (x : List ℚ) : mkScore (x.map (fun v => -v)) = - mkScore x := by
  induction x with
  | nil => simp [mkScore]
  | cons a t ih =>
    simp only [List.map_cons, mkScore, ih, List.map_map]
    have hfun : ((fun b => sgnq (b - -a)) ∘ (fun v => -v)) = fun v => - sgnq (v - a) := by
      funext v
      show sgnq (-v - -a) = - sgnq (v - a)
      rw [show (-v - -a : ℚ) = -(v - a) by ring, sgnq_neg]
    rw [hfun, sum_map_neg_int t (fun v => sgnq (v - a))]
    ring

theorem dedup_map_neg (x : List ℚ) :
    (x.map (fun v => -v)).dedup = x.dedup.map (fun v => -v) := by
  induction x with
  | nil => simp
  | cons a t ih =>
    by_cases h : a ∈ t
    · have h' : (fun v => -v) a ∈ t.map (fun v => -v) :=
        (List.mem_map_of_injective neg_injective).mpr h
      have h'' : a ∈ t.dedup := List.mem_dedup.mpr h
      rw [List.map_cons, List.dedup_cons_of_mem h', List.dedup_cons_of_mem h, ih]
    · have h' : (fun v => -v) a ∉ t.map (fun v => -v) := by
        intro hm
        exact h ((List.mem_map_of_injective neg_injective).mp hm)
      rw [List.map_cons, List.dedup_cons_of_not_mem h', List.dedup_cons_of_not_mem h, ih,
        List.map_cons]

theorem count_map_neg (x : List ℚ) (v : ℚ) :
    (x.map (fun u => -u)).count (-v) = x.count v :=
  List.count_map_of_injective x (fun u => -u) neg_injective v

theorem tieTerm_map_neg (x : List ℚ) : tieTerm (x.map (fun v => -v)) = tieTerm x := by
  unfold tieTerm
  rw [dedup_map_neg, List.map_map]
  refine congrArg List.sum (List.map_congr_left ?_)
  intro u _
  show ((x.map (fun v => -v)).count (-u) : ℚ) * _ * _ = _
  rw [count_map_neg]

theorem varS_map_neg (x : List ℚ) : varS (x.map (fun v => -v)) = varS x := by
  unfold varS
  have hlen : (x.map (fun v => -v)).length = x.length := by simp
  have hded : (x.map (fun v => -v)).dedup.length = x.dedup.length := by
    rw [dedup_map_neg]; simp
  rw [hlen, hded, tieTerm_map_neg]

theorem tauq_map_neg (x : List ℚ) : tauq (x.map (fun v => -v)) = - tauq x := by
  unfold tauq
  rw [mkScore_map_neg]
  push_cast
  rw [List.length_map]
  ring

theorem zScore_neg (s : ℤ) (v : ℚ) : zScore (-s) v = - zScore s v := by
  unfold zScore
  rcases lt_trichotomy s 0 with h | h | h
  · rw [if_pos (by omega), if_neg (by omega), if_neg (by omega)]
    push_cast
    ring
  · subst h
    norm_num
  · rw [if_neg (by omega), if_neg (by omega), if_pos h]
    push_cast
    ring

theorem pTrend_eq_dec_iff (z zcrit : ℝ) (Tau th : ℚ) :
    pTrend z zcrit Tau th = "decreasing" ↔ (|z| > zcrit ∧ z < 0 ∧ Tau < -th) := by
  unfold pTrend
  split_ifs with h1 h2
  · simp only [true_iff]
    exact ⟨h1.2.1, h1.1, h1.2.2⟩
  · constructor
    · intro h
      exact absurd h (by decide)
    · rintro ⟨ha, hb, hc⟩
      exact absurd ⟨hb, ha, hc⟩ h1
  · constructor
    · intro h
      exact absurd h (by decide)
    · rintro ⟨ha, hb, hc⟩
      exact absurd ⟨hb, ha, hc⟩ h1

theorem pTrend_eq_inc_iff (z zcrit : ℝ) (Tau th : ℚ) :
    pTrend z zcrit Tau th = "increasing" ↔ (|z| > zcrit ∧ 0 < z ∧ th < Tau) := by
  unfold pTrend
  split_ifs with h1 h2
  · constructor
    · intro h
      exact absurd h (by decide)
    · rintro ⟨ha, hb, hc⟩
      exact absurd h1.1 (not_lt.mpr hb.le)
  · simp only [true_iff]
    exact ⟨h2.2.1, h2.1, h2.2.2⟩
  · constructor
    · intro h
      exact absurd h (by decide)
    · rintro ⟨ha, hb, hc⟩
      exact absurd ⟨hb, ha, hc⟩ h2

theorem pTrend_eq_notrend_iff (z zcrit : ℝ) (Tau th : ℚ) :
    pTrend z zcrit Tau th = "no trend" ↔
      (¬(|z| > zcrit ∧ z < 0 ∧ Tau < -th) ∧ ¬(|z| > zcrit ∧ 0 < z ∧ th < Tau)) := by
  unfold pTrend
  split_ifs with h1 h2
  · constructor
    · intro h
      exact absurd h (by decide)
    · rintro ⟨ha, _⟩
      exact absurd ⟨h1.2.1, h1.1, h1.2.2⟩ ha
  · constructor
    · intro h
      exact absurd h (by decide)
    · rintro ⟨_, hb⟩
      exact absurd ⟨h2.2.1, h2.1, h2.2.2⟩ hb
  · simp only [true_iff]
    constructor
    · rintro ⟨ha, hb, hc⟩
      exact h1 ⟨hb, ha, hc⟩
    · rintro ⟨ha, hb, hc⟩
      exact h2 ⟨hb, ha, hc⟩

theorem pTrend_mem (z zcrit : ℝ) (Tau th : ℚ) :
    pTrend z zcrit Tau th = "decreasing" ∨ pTrend z zcrit Tau th = "increasing" ∨
      pTrend z zcrit Tau th = "no trend" := by
  unfold pTrend
  split_ifs <;> simp

theorem pTrend_neg (z zcrit : ℝ) (Tau th : ℚ) :
    pTrend (-z) zcrit (-Tau) th = swapLabel (pTrend z zcrit Tau th) := by
  rcases pTrend_mem z zcrit Tau th with h | h | h
  · obtain ⟨ha, hb, hc⟩ := (pTrend_eq_dec_iff z zcrit Tau th).mp h
    rw [h]
    show pTrend (-z) zcrit (-Tau) th = "increasing"
    exact (pTrend_eq_inc_iff (-z) zcrit (-Tau) th).mpr
      ⟨by rwa [abs_neg], by linarith, by linarith⟩
  · obtain ⟨ha, hb, hc⟩ := (pTrend_eq_inc_iff z zcrit Tau th).mp h
    rw [h]
    show pTrend (-z) zcrit (-Tau) th = "decreasing"
    exact (pTrend_eq_dec_iff (-z) zcrit (-Tau) th).mpr
      ⟨by rwa [abs_neg], by linarith, by linarith⟩
  · obtain ⟨ha, hb⟩ := (pTrend_eq_notrend_iff z zcrit Tau th).mp h
    rw [h]
    show pTrend (-z) zcrit (-Tau) th = "no trend"
    refine (pTrend_eq_notrend_iff (-z) zcrit (-Tau) th).mpr ⟨?_, ?_⟩
    · rintro ⟨h1, h2, h3⟩
      exact hb ⟨by rwa [abs_neg] at h1, by linarith, by linarith⟩
    · rintro ⟨h1, h2, h3⟩
      exact ha ⟨by rwa [abs_neg] at h1, by linarith, by linarith⟩

end MK

namespace MK

theorem drop_range' : ∀ (n s m : ℕ), (List.range' s n).drop m = List.range' (s + m) (n - m)
  | 0, s, m => by simp [List.range']
  | n + 1, s, 0 => by simp
  | n + 1, s, m + 1 => by
    show (List.range' (s + 1) n).drop m = List.range' (s + (m + 1)) (n + 1 - (m + 1))
    rw [drop_range' n (s + 1) m]
    congr 1 <;> omega

theorem range_drop (L W : ℕ) : (List.range L).drop W = List.range' W (L - W) := by
  rw [List.range_eq_range', drop_range' L 0 W]
  congr 1
  omega

theorem mvAccum_spec : ∀ (cols : List (List (Option ℚ))) (a : ℤ) (b c : ℚ),
    cols.foldl
      (fun acc col => (acc.1 + colScore col, acc.2.1 + colVar col, acc.2.2 + colDenom col))
      (a, b, c)
      = (a + (cols.map colScore).sum, b + (cols.map colVar).sum, c + (cols.map colDenom).sum)
  | [], a, b, c => by simp
  | d :: t, a, b, c => by
    simp only [List.foldl_cons, List.map_cons, List.sum_cons]
    rw [mvAccum_spec t]
    simp only [Prod.mk.injEq]
    exact ⟨by ring, by ring, by ring⟩

theorem mvAccum_eq (cols : List (List (Option ℚ))) :
    mvAccum cols = ((cols.map colScore).sum, (cols.map colVar).sum, (cols.map colDenom).sum) := by
  unfold mvAccum
  rw [mvAccum_spec]
  simp

theorem half_mul_pred_eq_zero_iff (n : ℕ) :
    (1 / 2 : ℚ) * (n : ℚ) * ((n : ℚ) - 1) = 0 ↔ n < 2 := by
  constructor
  · intro h
    by_contra hlt
    push_neg at hlt
    have h1 : (2 : ℚ) ≤ (n : ℚ) := by exact_mod_cast hlt
    nlinarith
  · intro h
    interval_cases n <;> norm_num

theorem MKtest_zero_denom (col : List (Option ℚ)) (h : (dropMissing col).length < 2) :
    MKtest col = Except.error "ZeroDivisionError" := by
  unfold MKtest
  rw [if_pos ((half_mul_pred_eq_zero_iff (dropMissing col).length).mpr h)]

theorem MKtest_ok (col : List (Option ℚ)) (h : 2 ≤ (dropMissing col).length) :
    ∃ r, MKtest col = Except.ok r := by
  unfold MKtest
  rw [if_neg ?_]
  · exact ⟨_, rfl⟩
  · intro hc
    exact absurd ((half_mul_pred_eq_zero_iff (dropMissing col).length).mp hc) (by omega)


end MK

namespace MK

/-! ## Claim theorems -/

/-- Claim C1 (code_bug evidence): on the tied input `x = [1, 1, 2]` the
source's `_var_s` yields `(3·2·11 + 2·1·9)/18 = 84/18 = 14/3`, which differs
from the standard tie-corrected Mann-Kendall variance
`(3·2·11 - 2·1·9)/18 = 48/18 = 8/3`: the source *adds* the tie term where
the standard formula *subtracts* it.  On the all-distinct input `[1, 2, 3]`
both agree (the tie term is `0` there), confirming the claim's distinct-value
part. -/
theorem C1_varS_adds_tie_term :
    varS [(1 : ℚ), 1, 2] = 14 / 3
    ∧ varSStandard [(1 : ℚ), 1, 2] = 8 / 3
    ∧ varS [(1 : ℚ), 1, 2] ≠ varSStandard [(1 : ℚ), 1, 2]
    ∧ varS [(1 : ℚ), 2, 3] = varSStandard [(1 : ℚ), 2, 3]
    ∧ varSStandard [(1 : ℚ), 2, 3] = 11 / 3 := by
  have hd1 : ([(1 : ℚ), 1, 2]).dedup = [1, 2] := by decide
  have hd2 : ([(1 : ℚ), 2, 3]).dedup = [1, 2, 3] := by decide
  have ht1 : tieTerm [(1 : ℚ), 1, 2] = 18 := by
    rw [tieTerm, hd1]
    norm_num [List.count_cons, List.count_nil]
  have ht2 : tieTerm [(1 : ℚ), 2, 3] = 0 := by
    rw [tieTerm, hd2]
    norm_num [List.count_cons, List.count_nil]
  refine ⟨?_, ?_, ?_, ?_, ?_⟩
  · rw [varS, if_neg (by rw [hd1]; decide), ht1]
    norm_num
  · rw [varSStandard, ht1]
    norm_num
  · rw [varS, if_neg (by rw [hd1]; decide), ht1, varSStandard, ht1]
    norm_num
  · rw [varS, if_pos (by rw [hd2]), varSStandard, ht2]
    norm_num
  · rw [varSStandard, ht2]
    norm_num

/-- Claim C2: in `multivariate_MKtest` the overall Kendall Tau equals the
pooled formula `(Σ S_i) / (Σ 0.5·n_i·(n_i-1))` and the overall z-score is
computed from the pooled score `Σ S_i` and pooled variance `Σ var_i`;
moreover on the concrete two-column input `mvEx` (valid lengths 3 and 2
after per-column NaN removal) the overall Tau is `1/2`, which differs from
the arithmetic mean `0` of the per-column Taus `1` and `-1`. -/
theorem C2_multivariate_overall :
    (∀ cols : List (List (Option ℚ)),
      overallTau cols = ((cols.map colScore).sum : ℚ) / (cols.map colDenom).sum
      ∧ overallZ cols = zScore (cols.map colScore).sum (cols.map colVar).sum)
    ∧ overallTau mvEx = 1 / 2
    ∧ perColTau mvCol1 = some 1
    ∧ perColTau mvCol2 = some (-1)
    ∧ overallTau mvEx ≠ ((1 : ℚ) + (-1)) / 2 := by
  have hgen : ∀ cols : List (List (Option ℚ)),
      overallTau cols = ((cols.map colScore).sum : ℚ) / (cols.map colDenom).sum
      ∧ overallZ cols = zScore (cols.map colScore).sum (cols.map colVar).sum := by
    intro cols
    rw [overallTau, overallZ, mvAccum_eq]
    exact ⟨rfl, rfl⟩
  have hm1 : dropMissing mvCol1 = [1, 2, 3] := by decide
  have hm2 : dropMissing mvCol2 = [1, 0] := by decide
  have hs1 : colScore mvCol1 = 3 := by
    rw [colScore, hm1]
    norm_num [mkScore, sgnq]
  have hs2 : colScore mvCol2 = -1 := by
    rw [colScore, hm2]
    norm_num [mkScore, sgnq]
  have hd1 : colDenom mvCol1 = 3 := by
    rw [colDenom, hm1]
    norm_num
  have hd2 : colDenom mvCol2 = 1 := by
    rw [colDenom, hm2]
    norm_num
  have hov : overallTau mvEx = 1 / 2 := by
    rw [(hgen mvEx).1]
    show ((colScore mvCol1 + (colScore mvCol2 + 0) : ℤ) : ℚ)
        / (colDenom mvCol1 + (colDenom mvCol2 + 0)) = 1 / 2
    rw [hs1, hs2, hd1, hd2]
    norm_num
  refine ⟨hgen, hov, ?_, ?_, ?_⟩
  · rw [perColTau, if_neg (by rw [hd1]; norm_num), hs1, hd1]
    norm_num
  · rw [perColTau, if_neg (by rw [hd2]; norm_num), hs2, hd2]
    norm_num
  · rw [hov]
    norm_num

/-- Claim C3: the trend decision of `_p_value` returns `"decreasing"` iff
`|z| > zcrit ∧ z < 0 ∧ Tau < -threshold`, `"increasing"` iff
`|z| > zcrit ∧ z > 0 ∧ Tau > threshold`, and `"no trend"` otherwise (with
`zcrit` standing for `norm.ppf(1 - alpha/2)`); in particular a
statistically significant input with `|Tau| ≤ threshold` is labelled
`"no trend"`. -/
theorem C3_trend_decision (z zcrit : ℝ) (Tau th : ℚ) :
    (pTrend z zcrit Tau th = "decreasing" ↔ (|z| > zcrit ∧ z < 0 ∧ Tau < -th))
    ∧ (pTrend z zcrit Tau th = "increasing" ↔ (|z| > zcrit ∧ 0 < z ∧ th < Tau))
    ∧ (pTrend z zcrit Tau th = "no trend" ↔
        (¬(|z| > zcrit ∧ z < 0 ∧ Tau < -th) ∧ ¬(|z| > zcrit ∧ 0 < z ∧ th < Tau)))
    ∧ (|z| > zcrit → |Tau| ≤ th → pTrend z zcrit Tau th = "no trend") := by
  refine ⟨pTrend_eq_dec_iff z zcrit Tau th, pTrend_eq_inc_iff z zcrit Tau th,
    pTrend_eq_notrend_iff z zcrit Tau th, ?_⟩
  intro _ htau
  obtain ⟨h1, h2⟩ := abs_le.mp htau
  refine (pTrend_eq_notrend_iff z zcrit Tau th).mpr ⟨?_, ?_⟩
  · rintro ⟨_, _, hc⟩
    linarith
  · rintro ⟨_, _, hc⟩
    linarith

/-- Witness for C3 at a concrete input: `z = 3` is significant for
`zcrit = 2`, but `Tau = 0` has `|Tau| ≤ 4/5`, so the label is `"no trend"`. -/
theorem C3_trend_decision_witness : pTrend 3 2 0 (4 / 5) = "no trend" :=
  (C3_trend_decision 3 2 0 (4 / 5)).2.2.2
    (by rw [show |(3 : ℝ)| = 3 from abs_of_pos (by norm_num)]; norm_num)
    (by norm_num)

/-- Claim C4 (amended): `MKtest` on a column with fewer than 2 valid points
reaches the zero denominator `0.5·n·(n-1)` in the unguarded `Tau` division
and raises `ZeroDivisionError` (it neither skips the window nor signals a
dedicated `InsufficientDataError`); with at least 2 valid points the division
is well defined and `MKtest` returns statistics. -/
theorem C4_degenerate_window (col : List (Option ℚ)) :
    ((dropMissing col).length < 2 → MKtest col = Except.error "ZeroDivisionError")
    ∧ (2 ≤ (dropMissing col).length → ∃ r, MKtest col = Except.ok r) :=
  ⟨MKtest_zero_denom col, MKtest_ok col⟩

/-- Witness for C4 on the column `[1, NaN]` (one valid point). -/
theorem C4_degenerate_window_witness :
    (dropMissing [some 1, none]).length < 2
    ∧ MKtest [some 1, none] = Except.error "ZeroDivisionError" :=
  ⟨by decide, (C4_degenerate_window [some 1, none]).1 (by decide)⟩

/-- Counterexample for C4 as stated: on the single-point window `[5]` the
engine performs the division by the zero denominator — Python raises an
uncaught `ZeroDivisionError` — instead of skipping the window or signalling
a dedicated `InsufficientDataError` (no such error exists in the source). -/
theorem C4_counterexample :
    MKtest [some 5] = Except.error "ZeroDivisionError"
    ∧ MKtest [some 5] ≠ Except.error "InsufficientDataError" := by
  have h := MKtest_zero_denom [some 5] (by decide)
  refine ⟨h, ?_⟩
  rw [h]
  intro hcontra
  have : ("ZeroDivisionError" : String) = "InsufficientDataError" :=
    Except.error.inj hcontra
  exact absurd this (by decide)

/-- Claim C5 (amended): in a whole-series run with an invalid `direction`,
the `ValueError` of `get_MK_results` is raised only *after* the scan: the
event trace is all `len(x) - window_size` window evaluations followed by the
direction error. -/
theorem C5_direction_checked_after_scan (x : List ℚ) (W : ℕ) (dir : String)
    (hlen : W ≤ x.length) (hdir : ¬(dir = "up" ∨ dir = "down" ∨ dir = "both")) :
    detectorEvents x W dir
      = (((List.range x.length).drop W).map DetEvent.evalWindow) ++ [DetEvent.directionError]
    ∧ ((((List.range x.length).drop W).map DetEvent.evalWindow)).length = x.length - W := by
  unfold detectorEvents
  rw [if_neg (by omega), if_neg hdir]
  exact ⟨rfl, by simp⟩

/-- Witness for C5 on the two-point series `[1, 2]`, `window_size = 1` and
the invalid direction `"sideway"`. -/
theorem C5_direction_checked_after_scan_witness :
    (1 ≤ ([1, 2] : List ℚ).length)
    ∧ ¬("sideway" = "up" ∨ "sideway" = "down" ∨ "sideway" = "both")
    ∧ detectorEvents [1, 2] 1 "sideway" = [DetEvent.evalWindow 1, DetEvent.directionError] := by
  refine ⟨by decide, by decide, ?_⟩
  rw [(C5_direction_checked_after_scan [1, 2] 1 "sideway" (by decide) (by decide)).1]
  rfl

/-- Counterexample for C5 as stated: with the invalid direction
`"sideways"` on a 21-point series and `window_size = 20`, the run does fail,
but only after evaluating the window at anchor 20 — the first trace event is
a window evaluation, not the validation error, contradicting "no window is
evaluated ... before the failure". -/
theorem C5_counterexample :
    detectorEvents xUp21 20 "sideways" = [DetEvent.evalWindow 20, DetEvent.directionError]
    ∧ (detectorEvents xUp21 20 "sideways").head? = some (DetEvent.evalWindow 20) := by
  constructor <;> decide

/-- Claim C6: a whole-series scan over a series of length `L` with
`window_size = W < L` produces exactly `L - W` Statistic Records, one per
anchor position `t = W, …, L-1` (that is, `range' W (L-W)`), in strictly
increasing anchor order. -/
theorem C6_scan_window_count (x : List ℚ) (W : ℕ) (h : W < x.length) :
    (scanRecords x W).length = x.length - W
    ∧ (scanRecords x W).map StatRecord.ds = List.range' W (x.length - W)
    ∧ List.Pairwise (fun a b => a.ds < b.ds) (scanRecords x W) := by
  unfold scanRecords
  rw [range_drop]
  refine ⟨by simp, ?_, ?_⟩
  · rw [List.map_map]
    exact List.map_id _
  · rw [List.pairwise_map]
    exact List.pairwise_lt_range' W (x.length - W)

/-- Witness for C6 on the three-point series `[5, 6, 7]` with
`window_size = 1`: two records are produced. -/
theorem C6_scan_window_count_witness :
    (1 < ([5, 6, 7] : List ℚ).length)
    ∧ (scanRecords [5, 6, 7] 1).length = ([5, 6, 7] : List ℚ).length - 1 :=
  ⟨by decide, (C6_scan_window_count [5, 6, 7] 1 (by decide)).1⟩

/-- Claim C7 (amended): on the 20-point example series with
`window_size = 20`, the whole-series run raises no error but the scan loop
`for t in index[20:]` is empty: *zero* points are evaluated and no
Statistic Record is produced. -/
theorem C7_example_scan_empty :
    detectorEvents xC7 20 "both" = [] ∧ scanRecords xC7 20 = [] := by
  constructor <;> rfl

/-- Counterexample for C7 as stated: the scan evaluates zero points, not a
single point. -/
theorem C7_counterexample :
    (scanRecords xC7 20).length = 0 ∧ ¬((scanRecords xC7 20).length = 1) := by
  constructor <;> decide

/-- Claim C8: negating every value of a series negates the Mann-Kendall
score and Kendall's Tau, leaves the variance and `|z|` (hence significance)
unchanged, and swaps the `"increasing"`/`"decreasing"` labels while fixing
`"no trend"` (`swapLabel`). -/
theorem C8_negation_symmetry (x : List ℚ) (zcrit : ℝ) (th : ℚ) :
    mkScore (x.map (fun v => -v)) = - mkScore x
    ∧ tauq (x.map (fun v => -v)) = - tauq x
    ∧ varS (x.map (fun v => -v)) = varS x
    ∧ |zScore (mkScore (x.map (fun v => -v))) (varS (x.map (fun v => -v)))|
        = |zScore (mkScore x) (varS x)|
    ∧ mkTrendLabel (x.map (fun v => -v)) zcrit th = swapLabel (mkTrendLabel x zcrit th) := by
  refine ⟨mkScore_map_neg x, tauq_map_neg x, varS_map_neg x, ?_, ?_⟩
  · rw [mkScore_map_neg, varS_map_neg, zScore_neg, abs_neg]
  · unfold mkTrendLabel
    rw [mkScore_map_neg, varS_map_neg, tauq_map_neg, zScore_neg, pTrend_neg]


/-- Claim C10: `detector` drops, before deseasonalization, smoothing or any
statistic, every column containing at least one missing value
(`ts.dropna(axis=1)`): appending such a column to the input leaves the whole
scan output unchanged, every surviving column is fully observed, and a
column survives iff it is an input column without missing values. -/
theorem C10_dropna_columns (L W : ℕ) (cols : List Column) (name : String)
    (bad : List (Option ℚ)) (hbad : none ∈ bad) :
    dropNaNColumns (cols ++ [(name, bad)]) = dropNaNColumns cols
    ∧ detectorScan L (cols ++ [(name, bad)]) W = detectorScan L cols W
    ∧ (∀ c ∈ dropNaNColumns cols, ∀ v ∈ c.2, v.isSome)
    ∧ (∀ c : Column, c ∈ dropNaNColumns cols ↔ (c ∈ cols ∧ hasMissing c.2 = false)) := by
  have hb : hasMissing bad = true := by
    unfold hasMissing
    rw [List.any_eq_true]
    exact ⟨none, hbad, rfl⟩
  have hfilter : dropNaNColumns (cols ++ [(name, bad)]) = dropNaNColumns cols := by
    unfold dropNaNColumns
    rw [List.filter_append]
    simp [hb]
  refine ⟨hfilter, ?_, ?_, ?_⟩
  · unfold detectorScan
    rw [hfilter]
  · intro c hc v hv
    have hcm : hasMissing c.2 = false := by
      have := (List.mem_filter.mp hc).2
      simpa using this
    unfold hasMissing at hcm
    rw [List.any_eq_false] at hcm
    have := hcm v hv
    cases v
    · simp at this
    · simp
  · intro c
    constructor
    · intro hc
      refine ⟨(List.mem_filter.mp hc).1, ?_⟩
      have := (List.mem_filter.mp hc).2
      simpa using this
    · rintro ⟨hc, hm⟩
      exact List.mem_filter.mpr ⟨hc, by simp [hm]⟩

/-- Witness for C10: appending the column `("b", [1, NaN, 3])` to a clean
one-column input leaves the scan output unchanged. -/
theorem C10_dropna_columns_witness :
    (none ∈ ([some 1, none, some 3] : List (Option ℚ)))
    ∧ detectorScan 3 [("a", [some 1, some 2, some 3]), ("b", [some 1, none, some 3])] 1
        = detectorScan 3 [("a", [some 1, some 2, some 3])] 1 :=
  ⟨by decide,
    (C10_dropna_columns 3 1 [("a", [some 1, some 2, some 3])] "b"
      [some 1, none, some 3] (by decide)).2.1⟩

end MK
